import Mathlib

/-!
# A verification model of the Tiled (Qt) map-editor scene code

This file gives a shallow embedding of the scene/view glue code of the
Tiled map editor excerpt:

* `mapscene.cpp` — the `MapScene` graphics scene: scene construction from
  the map document (`refreshScene`), grid drawing (`drawForeground`),
  mouse handling (`mouseMoveEvent`, `mousePressEvent`, `mouseReleaseEvent`),
  visibility toggles (`setGridVisible`, `setBrushVisible`,
  `updateBrushVisibility`), enter/leave handling (`event`) and region
  repaints (`repaintRegion`).
* `terrainview.cpp` — `TerrainView::wheelEvent`.
* `tilesetview.h` — `TilesetView::tilesetModel`.

Modelling conventions:

* `qreal` (double) scene coordinates are modelled as rationals (`ℚ`).
* A C/C++ cast `(int) x` of a real value is truncation toward zero
  (`cppToInt`), and C/C++ integer division likewise truncates toward zero
  (`cppDiv`, i.e. `Int.tdiv`).
* A dereference of a null pointer, and `QList::at` with an out-of-range
  index, are program errors; operations that can commit them return an
  `Option`, where `none` marks the error.
* Side effects that matter to the spec (repaint requests, brush paint
  calls, brush-visibility recomputation) are returned explicitly as a
  list of `Effect`s.
-/

set_option autoImplicit false

namespace Tiled

/-- C/C++ conversion of a real value to `int` (`(int) x` in the source):
truncation toward zero.  Real (`qreal`) values are modelled as rationals. -/
def cppToInt (q : ℚ) : Int := q.num.tdiv q.den

/-- C/C++ integer division: truncation toward zero (`a / b` on `int`s in
the source). -/
def cppDiv (a b : Int) : Int := a.tdiv b

/-- A map object of an object group (`MapObject`); only its position
(`object->x()`, `object->y()`, both `qreal`) is used by the scene code. -/
structure MapObject where
  x : ℚ
  y : ℚ
deriving DecidableEq

/-- A layer of a map, as discriminated by the `dynamic_cast` chain in
`MapScene::refreshScene`: a `TileLayer` (with its tile position `x`, `y`),
an `ObjectGroup` (with its object list), or a layer of any other kind. -/
inductive Layer where
  | tileLayer (x y : Int)
  | objectGroup (objects : List MapObject)
  | otherKind
deriving DecidableEq

/-- Whether `dynamic_cast<TileLayer*>(layer)` succeeds. -/
def Layer.isTileLayer : Layer → Bool
  | Layer.tileLayer _ _ => true
  | _ => false

/-- The map data used by the scene code: dimensions in tiles, tile size in
pixels, and the layer list (`Map`). -/
structure Map where
  width : Int
  height : Int
  tileWidth : Int
  tileHeight : Int
  layers : List Layer
deriving DecidableEq

/-- The map document (`MapDocument`): the map and the index of the
currently selected layer. -/
structure MapDocument where
  map : Map
  currentLayer : Int
deriving DecidableEq

/-- Models `QList::at(i)`: defined exactly for `0 ≤ i < size`; an out-of-range
access is a program error in the source, modelled as `none`. -/
def listAt {α : Type} (l : List α) (i : Int) : Option α :=
  if h : 0 ≤ i ∧ i.toNat < l.length then some (l.get ⟨i.toNat, h.2⟩) else none

/-- The brush item (`BrushItem`), as far as `MapScene` manipulates it:
its z-value, visibility and tile position. -/
structure BrushItem where
  zValue : Int
  visible : Bool
  tilePos : Int × Int
deriving DecidableEq

/-- The kind of a (non-brush) scene item created by `refreshScene`. -/
inductive ItemKind where
  | tileLayerItem
  | mapObjectItem
  | tileSelectionItem
deriving DecidableEq

/-- A scene item created by `refreshScene`: its kind, its position
(`setPos`) and its z-value (`setZValue`). -/
structure SceneItem where
  kind : ItemKind
  pos : ℚ × ℚ
  zValue : Int
deriving DecidableEq

/-- A `QRectF` (used for the scene rectangle, exposed rectangles and
pixel regions): position and size, with `right = x + w`, `bottom = y + h`. -/
structure RectF where
  x : ℚ
  y : ℚ
  w : ℚ
  h : ℚ
deriving DecidableEq

def RectF.left (r : RectF) : ℚ := r.x

def RectF.top (r : RectF) : ℚ := r.y

def RectF.right (r : RectF) : ℚ := r.x + r.w

def RectF.bottom (r : RectF) : ℚ := r.y + r.h

/-- A `QRect` with integer coordinates (the rectangles of a `QRegion`). -/
structure QRect where
  x : Int
  y : Int
  w : Int
  h : Int
deriving DecidableEq

/-- The side effects of the `MapScene` handlers that the specification
talks about: a repaint request (`update()`), the brush paint calls
(`BrushItem::beginPaint` / `BrushItem::endPaint`), and a recomputation of
the brush visibility (`updateBrushVisibility()`). -/
inductive Effect where
  | update
  | beginPaint
  | endPaint
  | brushVisibilityUpdate
deriving DecidableEq

/-- The state of a `MapScene`: the optional document, the brush item, the
items created by `refreshScene`, the scene rectangle, and the three
boolean fields `mGridVisible`, `mBrushVisible`, `mPainting`. -/
structure MapScene where
  mapDocument : Option MapDocument
  brush : BrushItem
  items : List SceneItem
  sceneRect : RectF
  gridVisible : Bool
  brushVisible : Bool
  painting : Bool
deriving DecidableEq

/-- The freshly constructed scene (`MapScene::MapScene`): no document, the
brush at z-value 10000 and invisible, grid visible, brush flag off, not
painting. -/
def MapScene.init : MapScene :=
  { mapDocument := none
    brush := { zValue := 10000, visible := false, tilePos := (0, 0) }
    items := []
    sceneRect := ⟨0, 0, 0, 0⟩
    gridVisible := true
    brushVisible := false
    painting := false }

/-- The items created for the objects of one object group by
`refreshScene`, starting at z-value `z` (`item->setZValue(z++)`). -/
def objectGroupItems (objs : List MapObject) (z : Int) : List SceneItem :=
  match objs with
  | [] => []
  | o :: rest =>
      { kind := ItemKind.mapObjectItem, pos := (o.x, o.y), zValue := z }
        :: objectGroupItems rest (z + 1)

/-- The items created for a list of layers by the `foreach` loop of
`MapScene::refreshScene`, with the z counter threaded through: one
`TileLayerItem` per tile layer (at the layer's tile position scaled by the
tile size), one `MapObjectItem` per object of each object group (at the
object's position), nothing for other layer kinds. -/
def layerItemsFrom (m : Map) (ls : List Layer) (z : Int) : List SceneItem :=
  match ls with
  | [] => []
  | Layer.tileLayer x y :: rest =>
      { kind := ItemKind.tileLayerItem,
        pos := (((x * m.tileWidth : Int) : ℚ), ((y * m.tileHeight : Int) : ℚ)),
        zValue := z } :: layerItemsFrom m rest (z + 1)
  | Layer.objectGroup objs :: rest =>
      objectGroupItems objs z ++ layerItemsFrom m rest (z + objs.length)
  | Layer.otherKind :: rest => layerItemsFrom m rest z

/-- All layer items created by `MapScene::refreshScene` (`int z = 0;` at
the start of the loop). -/
def layerItems (m : Map) : List SceneItem := layerItemsFrom m m.layers 0

/-- The slot `MapScene::refreshScene`: clears the items (keeping the brush); with
no document it just zeroes the scene rectangle; with a document it sets
the scene rectangle to the map's pixel size plus one, creates the layer
items and finally the `TileSelectionItem` at z-value `10000 - 1`. -/
def MapScene.refreshScene (s : MapScene) : MapScene :=
  match s.mapDocument with
  | none => { s with items := [], sceneRect := ⟨0, 0, 0, 0⟩ }
  | some doc =>
      let m := doc.map
      { s with
        items := layerItems m ++
          [{ kind := ItemKind.tileSelectionItem, pos := (0, 0),
             zValue := 10000 - 1 }],
        sceneRect := ⟨0, 0, ((m.width * m.tileWidth + 1 : Int) : ℚ),
                            ((m.height * m.tileHeight + 1 : Int) : ℚ)⟩ }

/-- The slot `MapScene::repaintRegion`: for each rectangle of the region it calls
`update(mMapDocument->toPixelCoordinates(r))`, dereferencing the document
each time without any null guard.  `toPixelCoordinates` is defined in
`mapdocument.cpp`, which is outside the excerpt, so it is passed as a
parameter.  The result is the list of update rectangles; `none` marks a
dereference of an absent document. -/
def MapScene.repaintRegion (toPixelCoordinates : MapDocument → QRect → RectF)
    (s : MapScene) (region : List QRect) : Option (List RectF) :=
  region.mapM fun r => s.mapDocument.map fun doc => toPixelCoordinates doc r

/-- The slot `MapScene::setGridVisible`: returns unchanged when the value is the
current one, otherwise stores it and requests a repaint (`update()`). -/
def MapScene.setGridVisible (s : MapScene) (visible : Bool) :
    MapScene × List Effect :=
  if s.gridVisible = visible then (s, [])
  else ({ s with gridVisible := visible }, [Effect.update])

/-- The method `MapScene::updateBrushVisibility`: the brush is shown exactly when the
brush flag is set, a document is present, and the layer at the document's
current-layer index is a tile layer.  The index lookup is
`QList::at(currentLayer)`, so an out-of-range current layer is a program
error (`none`). -/
def MapScene.updateBrushVisibility (s : MapScene) : Option MapScene :=
  match s.mapDocument with
  | none => some { s with brush := { s.brush with visible := false } }
  | some doc =>
      if s.brushVisible then
        match listAt doc.map.layers doc.currentLayer with
        | none => none
        | some layer =>
            some { s with brush := { s.brush with visible := layer.isTileLayer } }
      else some { s with brush := { s.brush with visible := false } }

/-- The slot `MapScene::setBrushVisible`: returns unchanged when the value is the
current one, otherwise stores it and recomputes the brush visibility. -/
def MapScene.setBrushVisible (s : MapScene) (visible : Bool) :
    Option (MapScene × List Effect) :=
  if s.brushVisible = visible then some (s, [])
  else (MapScene.updateBrushVisibility { s with brushVisible := visible }).map
    fun s2 => (s2, [Effect.brushVisibilityUpdate])

/-- A grid line drawn by `MapScene::drawForeground`
(`painter->drawLine`): a vertical line at `x` from `yTop` to `yBottom`,
or a horizontal line at `y` from `xLeft` to `xRight`. -/
inductive GridLine where
  | vertical (x yTop yBottom : Int)
  | horizontal (y xLeft xRight : Int)
deriving DecidableEq

/-- The values `start, start + step, ...` below `stop`, for `0 < step`:
the index sequences of the two `for` loops of `drawForeground`.  (For a
nonpositive step the source loops would not terminate; real maps have
positive tile sizes.) -/
def loopTicks (start stop step : Int) : List Int :=
  if 0 < step then
    (List.range ((stop - start + step - 1) / step).toNat).map
      fun (i : Nat) => start + step * (i : Int)
  else []

/-- The handler `MapScene::drawForeground`: with a document set and the grid visible,
draws vertical lines at multiples of the tile width and horizontal lines
at multiples of the tile height, starting from the exposed rectangle's
origin rounded to the grid and stopping at the exposed rectangle's
right/bottom clamped to the map's pixel extent plus one. -/
def MapScene.drawForeground (s : MapScene) (rect : RectF) : List GridLine :=
  match s.mapDocument with
  | none => []
  | some doc =>
      if s.gridVisible then
        let m := doc.map
        let tileWidth := m.tileWidth
        let tileHeight := m.tileHeight
        let startX := cppToInt (rect.x / (tileWidth : ℚ)) * tileWidth
        let startY := cppToInt (rect.y / (tileHeight : ℚ)) * tileHeight
        let endX := min (cppToInt rect.right) (m.width * tileWidth + 1)
        let endY := min (cppToInt rect.bottom) (m.height * tileHeight + 1)
        ((loopTicks startX endX tileWidth).map fun x =>
            GridLine.vertical x (cppToInt rect.top) (endY - 1)) ++
          ((loopTicks startY endY tileHeight).map fun y =>
            GridLine.horizontal y (cppToInt rect.left) (endX - 1))
      else []

/-- A scene mouse event (`QGraphicsSceneMouseEvent`) as
`MapScene::mouseMoveEvent` sees it: the scene position, and whether the
forwarding to `QGraphicsScene::mouseMoveEvent` left it accepted by an
item. -/
structure SceneMouseEvent where
  scenePos : ℚ × ℚ
  accepted : Bool
deriving DecidableEq

/-- The handler `MapScene::mouseMoveEvent`: returns with no document; after item
dispatch, if the event is not accepted, moves the brush to the tile cell
computed with C-style truncation: `((int) pos.x()) / tileWidth` and
likewise for y. -/
def MapScene.mouseMoveEvent (s : MapScene) (e : SceneMouseEvent) : MapScene :=
  match s.mapDocument with
  | none => s
  | some doc =>
      if e.accepted then s
      else
        let m := doc.map
        let tileX := cppDiv (cppToInt e.scenePos.1) m.tileWidth
        let tileY := cppDiv (cppToInt e.scenePos.2) m.tileHeight
        { s with brush := { s.brush with tilePos := (tileX, tileY) } }

/-- The handler `MapScene::mousePressEvent`: when the brush item is visible, calls
`mBrush->beginPaint()` and sets `mPainting`. -/
def MapScene.mousePressEvent (s : MapScene) : MapScene × List Effect :=
  if s.brush.visible then ({ s with painting := true }, [Effect.beginPaint])
  else (s, [])

/-- The handler `MapScene::mouseReleaseEvent`: when `mPainting` is set, calls
`mBrush->endPaint()` and clears it. -/
def MapScene.mouseReleaseEvent (s : MapScene) : MapScene × List Effect :=
  if s.painting then ({ s with painting := false }, [Effect.endPaint])
  else (s, [])

/-- The method `MapScene::setMapDocument`: stores the document, refreshes the scene
and recomputes the brush visibility.  (The signal/slot rewiring and
`BrushItem::setMapDocument` have no observable effect on the modelled
state.) -/
def MapScene.setMapDocument (s : MapScene) (doc : Option MapDocument) :
    Option MapScene :=
  MapScene.updateBrushVisibility
    (MapScene.refreshScene { s with mapDocument := doc })

/-- The events a `MapScene` reacts to: enter/leave (handled by
`MapScene::event`), the mouse handlers, and the slots. -/
inductive SceneEvent where
  | enter
  | leave
  | mouseMove (e : SceneMouseEvent)
  | mousePress
  | mouseRelease
  | gridVisible (v : Bool)
  | brushVisible (v : Bool)
  | setDocument (d : Option MapDocument)
  | refresh
deriving DecidableEq

/-- One step of the scene: dispatches a `SceneEvent` to the corresponding
handler, returning the new state and the emitted effects (`none` when the
handler commits a program error). -/
def sceneStep (s : MapScene) : SceneEvent → Option (MapScene × List Effect)
  | SceneEvent.enter => s.setBrushVisible true
  | SceneEvent.leave => s.setBrushVisible false
  | SceneEvent.mouseMove e => some (s.mouseMoveEvent e, [])
  | SceneEvent.mousePress => some s.mousePressEvent
  | SceneEvent.mouseRelease => some s.mouseReleaseEvent
  | SceneEvent.gridVisible v => some (s.setGridVisible v)
  | SceneEvent.brushVisible v => s.setBrushVisible v
  | SceneEvent.setDocument d => (s.setMapDocument d).map fun s2 => (s2, [])
  | SceneEvent.refresh => some (s.refreshScene, [])

/-- Runs a list of scene events from a state, concatenating the emitted
effects. -/
def sceneRun (s : MapScene) : List SceneEvent → Option (MapScene × List Effect)
  | [] => some (s, [])
  | e :: rest =>
      match sceneStep s e with
      | none => none
      | some (s2, fx) =>
          match sceneRun s2 rest with
          | none => none
          | some (s3, fx2) => some (s3, fx ++ fx2)

/-- Tracks the nesting depth of brush paint calls along an effect list:
`beginPaint` increments it, `endPaint` decrements it, everything else
leaves it; `none` means an `endPaint` arrived at depth zero, i.e. an
`endPaint` without a strictly preceding unmatched `beginPaint`. -/
def balAfter : Nat → List Effect → Option Nat
  | k, [] => some k
  | k, Effect.beginPaint :: rest => balAfter (k + 1) rest
  | Nat.succ k, Effect.endPaint :: rest => balAfter k rest
  | 0, Effect.endPaint :: _ => none
  | k, Effect.update :: rest => balAfter k rest
  | k, Effect.brushVisibilityUpdate :: rest => balAfter k rest

/-- An effect list is paint-balanced when every `endPaint` in it is
preceded by a strictly earlier unmatched `beginPaint`. -/
def paintBalanced (fx : List Effect) : Bool := (balAfter 0 fx).isSome

/-- A wheel event as `TerrainView::wheelEvent` inspects it: whether the
Control modifier is held (`event->modifiers() & Qt::ControlModifier`),
whether the orientation is vertical
(`event->orientation() == Qt::Vertical`), and the wheel delta. -/
structure WheelEvent where
  control : Bool
  vertical : Bool
  delta : Int
deriving DecidableEq

/-- What `TerrainView::wheelEvent` does with the event: forward the delta
to the view's `Zoomable` (`mZoomable->handleWheelDelta(event->delta())`),
or pass the event unchanged to `QTreeView::wheelEvent`. -/
inductive WheelOutcome where
  | zoomDelta (d : Int)
  | forwardedToBase
deriving DecidableEq

/-- A `TerrainView`, as far as its wheel handler is concerned: the scale
of its `Zoomable`. -/
structure TerrainView where
  zoomableScale : ℚ
deriving DecidableEq

/-- The handler `TerrainView::wheelEvent`.  `Zoomable::handleWheelDelta` is defined in
`zoomable.cpp`, outside the excerpt, so the scale change it applies is
passed as the parameter `handleWheelDelta`; the base handler does not
touch the zoomable. -/
def TerrainView.wheelEvent (handleWheelDelta : ℚ → Int → ℚ)
    (v : TerrainView) (e : WheelEvent) : TerrainView × WheelOutcome :=
  if e.control && e.vertical then
    ({ v with zoomableScale := handleWheelDelta v.zoomableScale e.delta },
      WheelOutcome.zoomDelta e.delta)
  else (v, WheelOutcome.forwardedToBase)

/-- A `TilesetModel` (defined in `tilesetmodel.h`, outside the excerpt):
modelled with contents hidden, keeping an identity tag so that distinct models are
distinguishable. -/
structure TilesetModel where
  tag : Nat
deriving DecidableEq

/-- A model installed on a `QAbstractItemView`: either a `TilesetModel` or
a model of some other concrete class. -/
inductive ItemModel where
  | tileset (m : TilesetModel)
  | otherClass (tag : Nat)
deriving DecidableEq

/-- A `TilesetView`, as far as `tilesetModel()` is concerned: the model
installed on it (`model()`, null when none is installed). -/
structure TilesetView where
  model : Option ItemModel
deriving DecidableEq

/-- The accessor `TilesetView::tilesetModel`: `static_cast<TilesetModel*>(model())`.
The cast yields a meaningful pointer only when the installed model really
is a `TilesetModel` (the class "may only be used with the TilesetModel");
`none` models both a null `model()` and the meaningless cast of a model of
another class. -/
def TilesetView.tilesetModel (v : TilesetView) : Option TilesetModel :=
  match v.model with
  | some (ItemModel.tileset m) => some m
  | _ => none

/-! ### Concrete sample data, used by counterexamples and witnesses -/

/-- A 10 × 10 map with 32 × 32 tiles and a single tile layer. -/
def map32 : Map :=
  { width := 10, height := 10, tileWidth := 32, tileHeight := 32,
    layers := [Layer.tileLayer 0 0] }

/-- A document on `map32` with the tile layer selected. -/
def doc32 : MapDocument := { map := map32, currentLayer := 0 }

/-- A scene showing `doc32`. -/
def scene32 : MapScene := { MapScene.init with mapDocument := some doc32 }

/-- A map with ten thousand tile layers: `refreshScene` then hands out
z-values 0 … 9999 to the layer items, so the last one collides with the
tile-selection item's z-value `10000 - 1`. -/
def mapManyLayers : Map :=
  { width := 1, height := 1, tileWidth := 32, tileHeight := 32,
    layers := List.replicate 10000 (Layer.tileLayer 0 0) }

/-- A document on `mapManyLayers`. -/
def docManyLayers : MapDocument := { map := mapManyLayers, currentLayer := 0 }

/-- A scene showing `docManyLayers`. -/
def sceneManyLayers : MapScene :=
  { MapScene.init with mapDocument := some docManyLayers }

/-- A scene with no document but a visible brush item (as after an enter
event with a tile layer selected, once the document is gone). -/
def sceneBrushOn : MapScene :=
  { MapScene.init with brush := { MapScene.init.brush with visible := true } }

/-- The scene `scene32` with the brush flag raised. -/
def sceneBrushFlagOn : MapScene := { scene32 with brushVisible := true }

/-- The scene `sceneBrushFlagOn` after `updateBrushVisibility` has shown the brush
(the selected layer of `doc32` is a tile layer). -/
def sceneBrushFlagOnShown : MapScene :=
  { sceneBrushFlagOn with
    brush := { sceneBrushFlagOn.brush with visible := true } }

/-! ### Specification-side definitions and helper predicates -/

/-- The items a single layer is specified to contribute, stated from the
specification's words for claim C4: exactly one item per tile layer,
positioned at the layer's tile coordinates multiplied by the map's tile
width and height; exactly one item per map object of an object group,
positioned at the object's coordinates; no item for a layer of any other
kind.  To be compared with what the source builds. -/
def specItemsOf (m : Map) : Layer → List (ItemKind × (ℚ × ℚ))
  | Layer.tileLayer x y =>
      [(ItemKind.tileLayerItem,
        (((x * m.tileWidth : Int) : ℚ), ((y * m.tileHeight : Int) : ℚ)))]
  | Layer.objectGroup objs =>
      objs.map fun o => (ItemKind.mapObjectItem, (o.x, o.y))
  | Layer.otherKind => []

/-- The scene items the specification describes for claim C4, built by
iterating the map's layers in order. -/
def specLayerItems (m : Map) : List (ItemKind × (ℚ × ℚ)) :=
  m.layers.flatMap (specItemsOf m)

/-- The property claimed of each grid line drawn by `drawForeground`: its
fixed coordinate is a multiple of the tile size, it lies within the
exposed rectangle (up to the grid snap of one tile on the low side,
strictly inside on the high side), and it does not exceed the map's pixel
extent. -/
def gridLineOk (m : Map) (rect : RectF) : GridLine → Bool
  | GridLine.vertical x _ _ =>
      decide ((m.tileWidth ∣ x) ∧ rect.x - (m.tileWidth : ℚ) < (x : ℚ) ∧
        (x : ℚ) < rect.right ∧ x ≤ m.width * m.tileWidth)
  | GridLine.horizontal y _ _ =>
      decide ((m.tileHeight ∣ y) ∧ rect.y - (m.tileHeight : ℚ) < (y : ℚ) ∧
        (y : ℚ) < rect.bottom ∧ y ≤ m.height * m.tileHeight)

/-- The number of brush paint calls currently open in a scene state: one
while `mPainting` is set, none otherwise. -/
def paintDepth (s : MapScene) : Nat := if s.painting then 1 else 0

/-! ### Arithmetic facts about C-style truncation -/

theorem cppToInt_eq_ite (q : ℚ) : cppToInt q = if 0 ≤ q then ⌊q⌋ else ⌈q⌉ := by
  by_cases h : 0 ≤ q
  · rw [if_pos h, cppToInt, Int.tdiv_eq_ediv (Rat.num_nonneg.mpr h) (Int.ofNat_nonneg q.den),
      Rat.floor_def]
  · rw [if_neg h, cppToInt]
    have hq : q < 0 := not_le.mp h
    have hnum : 0 ≤ -q.num := by
      have := Rat.num_neg.mpr hq
      omega
    have hstep : q.num.tdiv q.den = -((-q.num).tdiv q.den) := by
      rw [Int.neg_tdiv, neg_neg]
    rw [hstep, Int.tdiv_eq_ediv hnum (Int.ofNat_nonneg q.den)]
    have hfloor : (-q.num) / (q.den : Int) = ⌊-q⌋ := by
      rw [Rat.floor_def, Rat.neg_num, Rat.neg_den]
    rw [hfloor, Int.floor_neg, neg_neg]

theorem cppToInt_of_nonneg {q : ℚ} (h : 0 ≤ q) : cppToInt q = ⌊q⌋ := by
  rw [cppToInt_eq_ite, if_pos h]

theorem cppToInt_gt (q : ℚ) : q - 1 < (cppToInt q : ℚ) := by
  rw [cppToInt_eq_ite]
  by_cases h : 0 ≤ q
  · rw [if_pos h]; exact Int.sub_one_lt_floor q
  · rw [if_neg h]
    calc q - 1 < q := by linarith
    _ ≤ (⌈q⌉ : ℚ) := Int.le_ceil q

theorem cppToInt_lt (q : ℚ) : (cppToInt q : ℚ) < q + 1 := by
  rw [cppToInt_eq_ite]
  by_cases h : 0 ≤ q
  · rw [if_pos h]
    calc ((⌊q⌋ : Int) : ℚ) ≤ q := Int.floor_le q
    _ < q + 1 := by linarith
  · rw [if_neg h]; exact Int.ceil_lt_add_one q

theorem floor_rat_div_int (q : ℚ) (b : Int) (hb : 0 < b) :
    ⌊q / (b : ℚ)⌋ = ⌊q⌋ / b := by
  have hbq : (0 : ℚ) < (b : ℚ) := by exact_mod_cast hb
  have key : ∀ n : Int, n ≤ ⌊q / (b : ℚ)⌋ ↔ n ≤ ⌊q⌋ / b := by
    intro n
    rw [Int.le_floor, le_div_iff₀ hbq, Int.le_ediv_iff_mul_le hb, Int.le_floor]
    constructor
    · intro hx; exact_mod_cast hx
    · intro hx; exact_mod_cast hx
  exact le_antisymm ((key _).mp le_rfl) ((key _).mpr le_rfl)

/-- For a nonnegative coordinate and a positive tile size, the C-style
cast-then-divide of the source agrees with flooring the exact quotient. -/
theorem cppDiv_cppToInt_of_nonneg {q : ℚ} {b : Int} (hq : 0 ≤ q) (hb : 0 < b) :
    cppDiv (cppToInt q) b = ⌊q / (b : ℚ)⌋ := by
  rw [cppToInt_of_nonneg hq, cppDiv,
    Int.tdiv_eq_ediv (Int.floor_nonneg.mpr hq) (le_of_lt hb),
    floor_rat_div_int q b hb]

/-! ### Claim C1: mouse-move snapping to tile cells -/

/-- Claim C1 is false as stated: on `scene32` (32 × 32 tiles), an
unaccepted mouse move at scene position (−5, 0) puts the brush at tile
(0, 0) — `((int) -5.0) / 32` truncates toward zero — while the claimed
`(floor(pos.x / tileWidth), floor(pos.y / tileHeight))` is (−1, 0). -/
theorem mouseMove_snap_counterexample :
    (scene32.mouseMoveEvent { scenePos := (-5, 0), accepted := false }).brush.tilePos
        = (0, 0)
      ∧ (⌊(-5 : ℚ) / ((32 : Int) : ℚ)⌋, ⌊(0 : ℚ) / ((32 : Int) : ℚ)⌋) = (-1, 0)
      ∧ (scene32.mouseMoveEvent { scenePos := (-5, 0), accepted := false }).brush.tilePos
        ≠ (⌊(-5 : ℚ) / ((32 : Int) : ℚ)⌋, ⌊(0 : ℚ) / ((32 : Int) : ℚ)⌋) := by
  have h1 : (scene32.mouseMoveEvent
      { scenePos := (-5, 0), accepted := false }).brush.tilePos = (0, 0) := by
    decide
  have h2 : ⌊(-5 : ℚ) / ((32 : Int) : ℚ)⌋ = -1 := by
    rw [Int.floor_eq_iff]
    constructor
    · push_cast; norm_num
    · push_cast; norm_num
  have h3 : ⌊(0 : ℚ) / ((32 : Int) : ℚ)⌋ = 0 := by
    norm_num
  refine ⟨h1, by rw [h2, h3], ?_⟩
  rw [h1, h2, h3]
  decide

/-- Claim C1 (amended): for every unaccepted mouse-move received with a
map document set, `MapScene::mouseMoveEvent` snaps the scene position to
the containing tile cell by C-style truncating division; for scene
positions with nonnegative coordinates (and positive tile sizes) this is
exactly `(floor(pos.x / tileWidth), floor(pos.y / tileHeight))`.  For
negative coordinates the truncation rounds toward zero instead of
flooring. -/
theorem mouseMove_snaps (s : MapScene) (doc : MapDocument) (e : SceneMouseEvent)
    (hdoc : s.mapDocument = some doc) (hacc : e.accepted = false)
    (htw : 0 < doc.map.tileWidth) (hth : 0 < doc.map.tileHeight)
    (hx : 0 ≤ e.scenePos.1) (hy : 0 ≤ e.scenePos.2) :
    (s.mouseMoveEvent e).brush.tilePos =
      (⌊e.scenePos.1 / (doc.map.tileWidth : ℚ)⌋,
       ⌊e.scenePos.2 / (doc.map.tileHeight : ℚ)⌋) := by
  simp [MapScene.mouseMoveEvent, hdoc, hacc,
    cppDiv_cppToInt_of_nonneg hx htw, cppDiv_cppToInt_of_nonneg hy hth]

/-- Witness for the amended claim C1 at a concrete input: scene position
(65, 33) on 32 × 32 tiles lands in tile (2, 1). -/
theorem mouseMove_snaps_witness :
    (scene32.mouseMoveEvent { scenePos := (65, 33), accepted := false }).brush.tilePos
      = (⌊(65 : ℚ) / ((32 : Int) : ℚ)⌋, ⌊(33 : ℚ) / ((32 : Int) : ℚ)⌋) :=
  mouseMove_snaps scene32 doc32 { scenePos := (65, 33), accepted := false }
    rfl rfl (by decide) (by decide) (by decide) (by decide)

/-! ### Claim C2: null-document guards -/

/-- Claim C2 is false as stated: `MapScene::repaintRegion` does not guard
against an absent document.  On the freshly constructed scene (no
document) with a one-rectangle region it dereferences the absent document
(modelled as the `none` result) instead of returning without
dereferencing it. -/
theorem repaintRegion_noDoc_counterexample :
    MapScene.repaintRegion
        (fun _ r => ⟨(r.x : ℚ), (r.y : ℚ), (r.w : ℚ), (r.h : ℚ)⟩)
        MapScene.init [⟨0, 0, 1, 1⟩] = none := by
  decide

/-- Claim C2 (amended): of the `MapScene` operations that use the map
document, `refreshScene`, `drawForeground`, `mouseMoveEvent` and
`updateBrushVisibility` guard against an absent document and return
without dereferencing it (`refreshScene` only zeroes the scene rectangle
and clears the items, `updateBrushVisibility` only hides the brush);
`repaintRegion` has no guard and dereferences the document once per
rectangle of the region, so with no document it errs on every nonempty
region. -/
theorem noDoc_guards (s : MapScene) (toPix : MapDocument → QRect → RectF)
    (r : QRect) (region : List QRect) (e : SceneMouseEvent) (rect : RectF)
    (h : s.mapDocument = none) :
    s.refreshScene = { s with items := [], sceneRect := ⟨0, 0, 0, 0⟩ }
  ∧ s.drawForeground rect = []
  ∧ s.mouseMoveEvent e = s
  ∧ s.updateBrushVisibility = some { s with brush := { s.brush with visible := false } }
  ∧ MapScene.repaintRegion toPix s (r :: region) = none := by
  refine ⟨?_, ?_, ?_, ?_, ?_⟩
  · simp [MapScene.refreshScene, h]
  · simp [MapScene.drawForeground, h]
  · simp [MapScene.mouseMoveEvent, h]
  · simp [MapScene.updateBrushVisibility, h]
  · simp only [MapScene.repaintRegion, h]
    rfl

/-- Witness for the amended claim C2 on the freshly constructed scene. -/
theorem noDoc_guards_witness :
    MapScene.init.refreshScene
        = { MapScene.init with items := [], sceneRect := ⟨0, 0, 0, 0⟩ }
  ∧ MapScene.init.drawForeground ⟨0, 0, 100, 100⟩ = []
  ∧ MapScene.init.mouseMoveEvent { scenePos := (3, 4), accepted := false }
        = MapScene.init
  ∧ MapScene.init.updateBrushVisibility
        = some { MapScene.init with
                 brush := { MapScene.init.brush with visible := false } }
  ∧ MapScene.repaintRegion
        (fun _ r => ⟨(r.x : ℚ), (r.y : ℚ), (r.w : ℚ), (r.h : ℚ)⟩)
        MapScene.init [⟨2, 3, 4, 5⟩] = none :=
  noDoc_guards MapScene.init
    (fun _ r => ⟨(r.x : ℚ), (r.y : ℚ), (r.w : ℚ), (r.h : ℚ)⟩)
    ⟨2, 3, 4, 5⟩ [] { scenePos := (3, 4), accepted := false } ⟨0, 0, 100, 100⟩ rfl

/-! ### The z-values and contents of the items built by `refreshScene` -/

theorem objectGroupItems_length (objs : List MapObject) (z : Int) :
    (objectGroupItems objs z).length = objs.length := by
  induction objs generalizing z with
  | nil => rfl
  | cons o rest ih => simp [objectGroupItems, ih]

theorem objectGroupItems_zs (objs : List MapObject) (z : Int) :
    (objectGroupItems objs z).map SceneItem.zValue
      = (List.range objs.length).map fun (i : Nat) => z + (i : Int) := by
  induction objs generalizing z with
  | nil => rfl
  | cons o rest ih =>
      simp only [objectGroupItems, List.map_cons, ih (z + 1), List.length_cons]
      rw [List.range_succ_eq_map, List.map_cons, List.map_map]
      congr 1
      · simp
      · congr 1
        funext i
        simp only [Function.comp]
        push_cast
        ring

theorem layerItemsFrom_zs (m : Map) (ls : List Layer) (z : Int) :
    (layerItemsFrom m ls z).map SceneItem.zValue
      = (List.range (layerItemsFrom m ls z).length).map fun (i : Nat) => z + (i : Int) := by
  induction ls generalizing z with
  | nil => rfl
  | cons l rest ih =>
      cases l with
      | tileLayer x y =>
          simp only [layerItemsFrom, List.map_cons, ih (z + 1), List.length_cons]
          rw [List.range_succ_eq_map, List.map_cons, List.map_map]
          congr 1
          · simp
          · congr 1
            funext i
            simp only [Function.comp]
            push_cast
            ring
      | objectGroup objs =>
          simp only [layerItemsFrom, List.map_append, objectGroupItems_zs,
            ih (z + objs.length), List.length_append, objectGroupItems_length]
          rw [List.range_add, List.map_append, List.map_map]
          congr 1
          congr 1
          funext i
          simp only [Function.comp]
          push_cast
          ring
      | otherKind =>
          simp only [layerItemsFrom]
          exact ih z

theorem layerItems_zs (m : Map) :
    (layerItems m).map SceneItem.zValue
      = (List.range (layerItems m).length).map fun (i : Nat) => (i : Int) := by
  rw [layerItems, layerItemsFrom_zs]
  congr 1
  funext i
  simp

theorem refreshScene_items {s : MapScene} {doc : MapDocument}
    (h : s.mapDocument = some doc) :
    s.refreshScene.items
      = layerItems doc.map ++
        [{ kind := ItemKind.tileSelectionItem, pos := (0, 0), zValue := 9999 }] := by
  norm_num [MapScene.refreshScene, h]

theorem layerItemsFrom_replicate_length (m : Map) (n : Nat) (x y z : Int) :
    (layerItemsFrom m (List.replicate n (Layer.tileLayer x y)) z).length = n := by
  induction n generalizing z with
  | zero => rfl
  | succ k ih =>
      rw [List.replicate_succ]
      simp [layerItemsFrom, ih]

/-! ### Claim C3: z-ordering of the rebuilt scene -/

/-- Claim C3 is false as stated: on a map with ten thousand tile layers,
`refreshScene` gives the layer items z-values 0 … 9999, so the last layer
item's z-value equals the tile-selection item's z-value 9999 instead of
being strictly below it. -/
theorem refreshScene_zOrder_counterexample :
    sceneManyLayers.refreshScene.items
      = layerItems docManyLayers.map ++
        [{ kind := ItemKind.tileSelectionItem, pos := (0, 0), zValue := 9999 }]
  ∧ ((layerItems docManyLayers.map).all fun it => decide (it.zValue < 9999)) = false := by
  refine ⟨refreshScene_items rfl, ?_⟩
  rw [List.all_eq_false]
  have hlen : (layerItems docManyLayers.map).length = 10000 := by
    rw [layerItems]
    exact layerItemsFrom_replicate_length docManyLayers.map 10000 0 0 0
  have hmem : (9999 : Int) ∈ (layerItems docManyLayers.map).map SceneItem.zValue := by
    rw [layerItems_zs, hlen]
    exact List.mem_map.mpr ⟨9999, List.mem_range.mpr (by norm_num), by norm_num⟩
  obtain ⟨it, hit, hz⟩ := List.mem_map.mp hmem
  refine ⟨it, hit, ?_⟩
  rw [hz]
  simp

/-- Claim C3 (amended): after `refreshScene` with a document set, the
items are the layer items followed by the tile-selection item at z = 9999;
the layer items' z-values are exactly 0, 1, 2, … in creation order; the
brush (kept at its constructor z-value 10000) is untouched; and provided
at most 9999 layer items are created — as on any realistic map — every
layer item's z-value is strictly below both 9999 and 10000. -/
theorem refreshScene_zOrder (s : MapScene) (doc : MapDocument)
    (hdoc : s.mapDocument = some doc)
    (hcount : (layerItems doc.map).length ≤ 9999) :
    s.refreshScene.items
      = layerItems doc.map ++
        [{ kind := ItemKind.tileSelectionItem, pos := (0, 0), zValue := 9999 }]
  ∧ (layerItems doc.map).map SceneItem.zValue
      = (List.range (layerItems doc.map).length).map (fun (i : Nat) => (i : Int))
  ∧ s.refreshScene.brush = s.brush
  ∧ MapScene.init.brush.zValue = 10000
  ∧ ((layerItems doc.map).all fun it =>
      decide (it.zValue < 9999 ∧ it.zValue < 10000)) = true := by
  refine ⟨refreshScene_items hdoc, layerItems_zs doc.map, ?_, rfl, ?_⟩
  · simp [MapScene.refreshScene, hdoc]
  · rw [List.all_eq_true]
    intro it hit
    have hmem : it.zValue ∈ (layerItems doc.map).map SceneItem.zValue :=
      List.mem_map_of_mem SceneItem.zValue hit
    rw [layerItems_zs] at hmem
    obtain ⟨i, hi, hzi⟩ := List.mem_map.mp hmem
    have hlt : i < (layerItems doc.map).length := List.mem_range.mp hi
    rw [decide_eq_true_eq]
    constructor <;> omega

/-- Witness for the amended claim C3 on the one-layer scene `scene32`. -/
theorem refreshScene_zOrder_witness :
    scene32.refreshScene.items
      = layerItems doc32.map ++
        [{ kind := ItemKind.tileSelectionItem, pos := (0, 0), zValue := 9999 }]
  ∧ (layerItems doc32.map).map SceneItem.zValue
      = (List.range (layerItems doc32.map).length).map (fun (i : Nat) => (i : Int))
  ∧ scene32.refreshScene.brush = scene32.brush
  ∧ MapScene.init.brush.zValue = 10000
  ∧ ((layerItems doc32.map).all fun it =>
      decide (it.zValue < 9999 ∧ it.zValue < 10000)) = true :=
  refreshScene_zOrder scene32 doc32 rfl (by decide)

/-! ### Claim C4: what `refreshScene` builds -/

theorem objectGroupItems_kindPos (objs : List MapObject) (z : Int) :
    (objectGroupItems objs z).map (fun it => (it.kind, it.pos))
      = objs.map fun o => (ItemKind.mapObjectItem, (o.x, o.y)) := by
  induction objs generalizing z with
  | nil => rfl
  | cons o rest ih => simp [objectGroupItems, ih (z + 1)]

theorem layerItemsFrom_kindPos (m : Map) (ls : List Layer) (z : Int) :
    (layerItemsFrom m ls z).map (fun it => (it.kind, it.pos))
      = ls.flatMap (specItemsOf m) := by
  induction ls generalizing z with
  | nil => rfl
  | cons l rest ih =>
      cases l with
      | tileLayer x y => simp [layerItemsFrom, specItemsOf, ih (z + 1)]
      | objectGroup objs =>
          simp [layerItemsFrom, specItemsOf, ih (z + objs.length),
            objectGroupItems_kindPos]
      | otherKind => simp [layerItemsFrom, specItemsOf, ih z]

/-- Claim C4: with a document set, `refreshScene` builds the scene by
iterating the map's layers in order, creating exactly the items the
specification describes — one per tile layer at the layer's tile
coordinates scaled by the tile size, one per map object of each object
group at the object's position, none for other layer kinds — followed by
the tile-selection item. -/
theorem refreshScene_builds (s : MapScene) (doc : MapDocument)
    (hdoc : s.mapDocument = some doc) :
    s.refreshScene.items.map (fun it => (it.kind, it.pos))
      = specLayerItems doc.map ++
        [(ItemKind.tileSelectionItem, ((0 : ℚ), (0 : ℚ)))] := by
  rw [refreshScene_items hdoc, List.map_append]
  congr 1
  rw [layerItems, layerItemsFrom_kindPos]
  rfl

/-- Witness for claim C4 on the one-layer scene `scene32`. -/
theorem refreshScene_builds_witness :
    scene32.refreshScene.items.map (fun it => (it.kind, it.pos))
      = specLayerItems doc32.map ++
        [(ItemKind.tileSelectionItem, ((0 : ℚ), (0 : ℚ)))] :=
  refreshScene_builds scene32 doc32 rfl

/-! ### Field preservation of `updateBrushVisibility` and `setBrushVisible` -/

theorem updateBrushVisibility_fields {s s2 : MapScene}
    (h : s.updateBrushVisibility = some s2) :
    s2.brushVisible = s.brushVisible ∧ s2.painting = s.painting := by
  cases hdoc : s.mapDocument with
  | none =>
      simp only [MapScene.updateBrushVisibility, hdoc] at h
      cases h
      exact ⟨rfl, rfl⟩
  | some doc =>
      simp only [MapScene.updateBrushVisibility, hdoc] at h
      by_cases hv : s.brushVisible = true
      · rw [if_pos hv] at h
        cases hat : listAt doc.map.layers doc.currentLayer with
        | none =>
            simp only [hat] at h
            cases h
        | some layer =>
            simp only [hat] at h
            cases h
            exact ⟨rfl, rfl⟩
      · rw [if_neg hv] at h
        cases h
        exact ⟨rfl, rfl⟩

theorem setBrushVisible_fields {s s2 : MapScene} {v : Bool} {fx : List Effect}
    (h : s.setBrushVisible v = some (s2, fx)) :
    s2.painting = s.painting ∧ (fx = [] ∨ fx = [Effect.brushVisibilityUpdate]) := by
  unfold MapScene.setBrushVisible at h
  by_cases hv : s.brushVisible = v
  · rw [if_pos hv] at h
    cases h
    exact ⟨rfl, Or.inl rfl⟩
  · rw [if_neg hv] at h
    obtain ⟨s3, hup, hps⟩ := Option.map_eq_some'.mp h
    have hfields := updateBrushVisibility_fields hup
    cases hps
    exact ⟨hfields.2, Or.inr rfl⟩

/-! ### Claim C5: the visibility setters -/

/-- Claim C5: `setGridVisible` and `setBrushVisible` are idempotent
setters: after `setGridVisible v` the grid flag is `v`; after
`setBrushVisible v` (when it returns normally) the brush flag is `v`; and
when `v` already equals the current flag the call changes no state and
emits no repaint request and no brush-visibility update. -/
theorem visibility_setters (s : MapScene) (v : Bool) :
    (s.setGridVisible v).1.gridVisible = v
  ∧ (s.gridVisible = v → s.setGridVisible v = (s, []))
  ∧ ((s.setBrushVisible v).elim True fun p => p.1.brushVisible = v)
  ∧ (s.brushVisible = v → s.setBrushVisible v = some (s, [])) := by
  refine ⟨?_, ?_, ?_, ?_⟩
  · by_cases h : s.gridVisible = v <;> simp [MapScene.setGridVisible, h]
  · intro h
    simp [MapScene.setGridVisible, h]
  · cases hsb : s.setBrushVisible v with
    | none => simp
    | some p =>
        simp only [Option.elim]
        by_cases h : s.brushVisible = v
        · rw [MapScene.setBrushVisible, if_pos h] at hsb
          cases hsb
          exact h
        · rw [MapScene.setBrushVisible, if_neg h] at hsb
          obtain ⟨s2, hup, hps⟩ := Option.map_eq_some'.mp hsb
          have hfields := (updateBrushVisibility_fields hup).1
          cases hps
          exact hfields
  · intro h
    simp [MapScene.setBrushVisible, h]

/-- Witness for claim C5 on the freshly constructed scene. -/
theorem visibility_setters_witness :
    (MapScene.init.setGridVisible true).1.gridVisible = true
  ∧ (MapScene.init.gridVisible = true →
      MapScene.init.setGridVisible true = (MapScene.init, []))
  ∧ ((MapScene.init.setBrushVisible true).elim True fun p =>
      p.1.brushVisible = true)
  ∧ (MapScene.init.brushVisible = true →
      MapScene.init.setBrushVisible true = some (MapScene.init, [])) :=
  visibility_setters MapScene.init true

/-! ### Claim C6: the grid drawn by `drawForeground` -/

theorem mem_loopTicks {start stop step x : Int} (hstep : 0 < step)
    (hx : x ∈ loopTicks start stop step) :
    step ∣ (x - start) ∧ start ≤ x ∧ x < stop := by
  rw [loopTicks, if_pos hstep] at hx
  obtain ⟨i, hi, rfl⟩ := List.mem_map.mp hx
  have hiN : i < ((stop - start + step - 1) / step).toNat :=
    List.mem_range.mp hi
  have hiC : (i : Int) < (stop - start + step - 1) / step := by omega
  refine ⟨?_, ?_, ?_⟩
  · have hr : start + step * i - start = step * i := by ring
    rw [hr]
    exact dvd_mul_right step i
  · have hnn : (0 : Int) ≤ step * i :=
      mul_nonneg (le_of_lt hstep) (Int.ofNat_nonneg i)
    linarith
  · have h1 : (i : Int) + 1 ≤ (stop - start + step - 1) / step := hiC
    have h2 : ((stop - start + step - 1) / step) * step ≤ stop - start + step - 1 :=
      Int.ediv_mul_le _ (ne_of_gt hstep)
    have h3 : ((i : Int) + 1) * step ≤ ((stop - start + step - 1) / step) * step :=
      mul_le_mul_of_nonneg_right h1 (le_of_lt hstep)
    have h4 : step * (i : Int) = (i : Int) * step := mul_comm _ _
    linarith

/-- Bounds for one axis of the grid: every loop tick is a multiple of the
tile size, lies within one tile below the exposed interval and strictly
inside it on the high side, and never exceeds the map extent. -/
theorem tick_in_bounds {a r : ℚ} {tw bound x : Int} (htw : 0 < tw)
    (hx : x ∈ loopTicks (cppToInt (a / (tw : ℚ)) * tw)
            (min (cppToInt r) (bound + 1)) tw) :
    tw ∣ x ∧ a - (tw : ℚ) < (x : ℚ) ∧ (x : ℚ) < r ∧ x ≤ bound := by
  obtain ⟨hdvd, hge, hlt⟩ := mem_loopTicks htw hx
  have htwQ : (0 : ℚ) < (tw : ℚ) := by exact_mod_cast htw
  refine ⟨?_, ?_, ?_, ?_⟩
  · have hsplit : x = (x - cppToInt (a / (tw : ℚ)) * tw)
        + cppToInt (a / (tw : ℚ)) * tw := by ring
    rw [hsplit]
    exact dvd_add hdvd (dvd_mul_left tw (cppToInt (a / (tw : ℚ))))
  · have hgt : a / (tw : ℚ) - 1 < ((cppToInt (a / (tw : ℚ)) : Int) : ℚ) :=
      cppToInt_gt _
    have hmul : (a / (tw : ℚ) - 1) * (tw : ℚ)
        < ((cppToInt (a / (tw : ℚ)) : Int) : ℚ) * (tw : ℚ) :=
      mul_lt_mul_of_pos_right hgt htwQ
    have hdivmul : a / (tw : ℚ) * (tw : ℚ) = a :=
      div_mul_cancel₀ a (ne_of_gt htwQ)
    have hcast : ((cppToInt (a / (tw : ℚ)) * tw : Int) : ℚ) ≤ (x : ℚ) := by
      exact_mod_cast hge
    push_cast at hcast
    have hchain : a - (tw : ℚ)
        < ((cppToInt (a / (tw : ℚ)) : Int) : ℚ) * (tw : ℚ) := by
      calc a - (tw : ℚ) = a / (tw : ℚ) * (tw : ℚ) - (tw : ℚ) := by rw [hdivmul]
      _ = (a / (tw : ℚ) - 1) * (tw : ℚ) := by ring
      _ < _ := hmul
    linarith
  · have hlt2 : x < cppToInt r := lt_of_lt_of_le hlt (min_le_left _ _)
    have hc : (x : ℚ) + 1 ≤ ((cppToInt r : Int) : ℚ) := by exact_mod_cast hlt2
    have h2 := cppToInt_lt r
    linarith
  · have hlt3 : x < bound + 1 := lt_of_lt_of_le hlt (min_le_right _ _)
    omega

/-- Claim C6: `drawForeground` draws nothing unless a document is set and
the grid flag is on; and with a document whose tile sizes are positive,
every drawn vertical line is at a multiple of the tile width, within one
tile width below the exposed rectangle's left edge, strictly left of its
right edge, and at most the map's pixel width — and correspondingly for
horizontal lines. -/
theorem drawForeground_grid (s t : MapScene) (doc : MapDocument) (rect : RectF)
    (hdoc : s.mapDocument = some doc)
    (htw : 0 < doc.map.tileWidth) (hth : 0 < doc.map.tileHeight)
    (ht : t.mapDocument = none ∨ t.gridVisible = false) :
    t.drawForeground rect = []
  ∧ (s.drawForeground rect).all (gridLineOk doc.map rect) = true := by
  constructor
  · rcases ht with h | h
    · simp [MapScene.drawForeground, h]
    · cases hd : t.mapDocument with
      | none => simp [MapScene.drawForeground, hd]
      | some d => simp [MapScene.drawForeground, hd, h]
  · by_cases hg : s.gridVisible = true
    · simp only [MapScene.drawForeground, hdoc, hg, if_true]
      rw [List.all_append, Bool.and_eq_true]
      constructor
      · rw [List.all_eq_true]
        intro gl hgl
        obtain ⟨x, hx, rfl⟩ := List.mem_map.mp hgl
        have hb := tick_in_bounds htw hx
        simp only [gridLineOk]
        rw [decide_eq_true_eq]
        exact ⟨hb.1, hb.2.1, hb.2.2.1, hb.2.2.2⟩
      · rw [List.all_eq_true]
        intro gl hgl
        obtain ⟨y, hy, rfl⟩ := List.mem_map.mp hgl
        have hb := tick_in_bounds hth hy
        simp only [gridLineOk]
        rw [decide_eq_true_eq]
        exact ⟨hb.1, hb.2.1, hb.2.2.1, hb.2.2.2⟩
    · simp [MapScene.drawForeground, hdoc, hg]

/-- Witness for claim C6: `scene32` with the exposed rectangle
(0, 0)–(64, 64), and the document-less fresh scene. -/
theorem drawForeground_grid_witness :
    MapScene.init.drawForeground ⟨0, 0, 64, 64⟩ = []
  ∧ (scene32.drawForeground ⟨0, 0, 64, 64⟩).all
      (gridLineOk doc32.map ⟨0, 0, 64, 64⟩) = true :=
  drawForeground_grid scene32 MapScene.init doc32 ⟨0, 0, 64, 64⟩ rfl
    (by decide) (by decide) (Or.inl rfl)

/-! ### Claim C7: the terrain view's wheel handler -/

/-- Claim C7: `TerrainView::wheelEvent` forwards the wheel delta to the
view's `Zoomable` exactly when the Control modifier is held and the wheel
orientation is vertical; in every other case the event goes unchanged to
the base tree-view handler and the zoomable's scale is untouched. -/
theorem wheelEvent_zoom (hw : ℚ → Int → ℚ) (v : TerrainView) (e : WheelEvent) :
    ((v.wheelEvent hw e).2 = WheelOutcome.zoomDelta e.delta
        ↔ (e.control = true ∧ e.vertical = true))
  ∧ (¬(e.control = true ∧ e.vertical = true) →
      v.wheelEvent hw e = (v, WheelOutcome.forwardedToBase)) := by
  have hb : (e.control && e.vertical) = true
      ↔ (e.control = true ∧ e.vertical = true) := by rw [Bool.and_eq_true]
  by_cases h : (e.control && e.vertical) = true
  · refine ⟨?_, ?_⟩
    · simp only [TerrainView.wheelEvent, if_pos h]
      simp [hb.mp h]
    · intro hc
      exact absurd (hb.mp h) hc
  · refine ⟨?_, ?_⟩
    · simp only [TerrainView.wheelEvent, if_neg h]
      exact iff_of_false (by simp) fun hc => h (hb.mpr hc)
    · intro _
      simp only [TerrainView.wheelEvent, if_neg h]

/-- Witness for claim C7: a Control + vertical wheel event of delta 120
forwards the delta to the zoomable. -/
theorem wheelEvent_zoom_witness :
    ((TerrainView.wheelEvent (fun q d => q + (d : ℚ)) ⟨1⟩
          ⟨true, true, 120⟩).2 = WheelOutcome.zoomDelta 120
        ↔ (true = true ∧ true = true))
  ∧ (¬(true = true ∧ true = true) →
      TerrainView.wheelEvent (fun q d => q + (d : ℚ)) ⟨1⟩ ⟨true, true, 120⟩
        = (⟨1⟩, WheelOutcome.forwardedToBase)) :=
  wheelEvent_zoom (fun q d => q + (d : ℚ)) ⟨1⟩ ⟨true, true, 120⟩

/-! ### Claim C8: the brush-visibility invariant -/

theorem listAt_eq_some_valid {α : Type} {l : List α} {i : Int} {a : α}
    (h : listAt l i = some a) : 0 ≤ i ∧ i.toNat < l.length := by
  by_cases hcond : 0 ≤ i ∧ i.toNat < l.length
  · exact hcond
  · rw [listAt, dif_neg hcond] at h
    cases h

/-- Claim C8: whenever `updateBrushVisibility` returns, the brush item is
visible exactly when the brush flag is set, a document is present, and the
layer at the document's current-layer index is a tile layer; and when the
flag is set, its returning at all presupposes that the current-layer index
is a valid index into the layer list. -/
theorem updateBrushVisibility_shows (s s2 : MapScene)
    (hupd : s.updateBrushVisibility = some s2) :
    s2.brush.visible = (s.brushVisible &&
      (s.mapDocument.map fun doc =>
        (listAt doc.map.layers doc.currentLayer).elim false
          Layer.isTileLayer).getD false)
  ∧ (s.brushVisible = true →
      (s.mapDocument.map fun doc =>
        decide (0 ≤ doc.currentLayer ∧
          doc.currentLayer.toNat < doc.map.layers.length)).getD true = true) := by
  cases hdoc : s.mapDocument with
  | none =>
      simp only [MapScene.updateBrushVisibility, hdoc] at hupd
      cases hupd
      exact ⟨by simp [hdoc], fun _ => by simp [hdoc]⟩
  | some doc =>
      simp only [MapScene.updateBrushVisibility, hdoc] at hupd
      by_cases hv : s.brushVisible = true
      · rw [if_pos hv] at hupd
        cases hat : listAt doc.map.layers doc.currentLayer with
        | none =>
            simp only [hat] at hupd
            cases hupd
        | some layer =>
            simp only [hat] at hupd
            cases hupd
            refine ⟨by simp [hv, hat, hdoc], fun _ => ?_⟩
            rw [Option.map_some', Option.getD_some]
            rw [decide_eq_true_eq]
            exact listAt_eq_some_valid hat
      · rw [if_neg hv] at hupd
        cases hupd
        have hv2 : s.brushVisible = false := by
          revert hv
          cases s.brushVisible <;> simp
        exact ⟨by simp [hv2, hdoc], fun hvv => absurd hvv hv⟩

/-- Witness for claim C8: raising the brush flag on `scene32` (whose
selected layer 0 is a tile layer) and running `updateBrushVisibility`
shows the brush. -/
theorem updateBrushVisibility_shows_witness :
    sceneBrushFlagOnShown.brush.visible = (sceneBrushFlagOn.brushVisible &&
      (sceneBrushFlagOn.mapDocument.map fun doc =>
        (listAt doc.map.layers doc.currentLayer).elim false
          Layer.isTileLayer).getD false)
  ∧ (sceneBrushFlagOn.brushVisible = true →
      (sceneBrushFlagOn.mapDocument.map fun doc =>
        decide (0 ≤ doc.currentLayer ∧
          doc.currentLayer.toNat < doc.map.layers.length)).getD true = true) :=
  updateBrushVisibility_shows sceneBrushFlagOn sceneBrushFlagOnShown (by decide)

/-! ### Claim C10: the tileset view's model accessor -/

/-- Claim C10: under the precondition that the model installed on the view
is a `TilesetModel`, `TilesetView::tilesetModel` returns exactly the
installed model. -/
theorem tilesetModel_cast (v : TilesetView) (m : TilesetModel)
    (h : v.model = some (ItemModel.tileset m)) :
    v.tilesetModel = some m := by
  simp [TilesetView.tilesetModel, h]

/-- Witness for claim C10 with a concrete installed tileset model. -/
theorem tilesetModel_cast_witness :
    TilesetView.tilesetModel ⟨some (ItemModel.tileset ⟨7⟩)⟩ = some ⟨7⟩ :=
  tilesetModel_cast ⟨some (ItemModel.tileset ⟨7⟩)⟩ ⟨7⟩ rfl

/-! ### Claim C9: the painting protocol -/

theorem mouseMoveEvent_painting (s : MapScene) (e : SceneMouseEvent) :
    (s.mouseMoveEvent e).painting = s.painting := by
  cases hdoc : s.mapDocument with
  | none => simp [MapScene.mouseMoveEvent, hdoc]
  | some doc =>
      simp only [MapScene.mouseMoveEvent, hdoc]
      split <;> rfl

theorem refreshScene_painting (s : MapScene) :
    s.refreshScene.painting = s.painting := by
  cases hdoc : s.mapDocument <;> simp [MapScene.refreshScene, hdoc]

theorem setMapDocument_painting {s s2 : MapScene} {d : Option MapDocument}
    (h : s.setMapDocument d = some s2) : s2.painting = s.painting := by
  have h2 := (updateBrushVisibility_fields h).2
  rw [h2, refreshScene_painting]

theorem balAfter_append (k : Nat) (a b : List Effect) :
    balAfter k (a ++ b) = (balAfter k a).bind fun k2 => balAfter k2 b := by
  induction a generalizing k with
  | nil => simp [balAfter]
  | cons e rest ih =>
      cases e with
      | beginPaint => simp [balAfter, ih]
      | endPaint =>
          cases k with
          | zero => simp [balAfter]
          | succ k2 => simp [balAfter, ih]
      | update => simp [balAfter, ih]
      | brushVisibilityUpdate => simp [balAfter, ih]

/-- One scene step keeps the paint-call nesting consistent: from a depth
bound `k` on the state, the emitted effects replay without an unmatched
`endPaint` and end at a depth bound for the next state. -/
theorem sceneStep_balance {s s2 : MapScene} {e : SceneEvent} {fx : List Effect}
    (hstep : sceneStep s e = some (s2, fx)) (k : Nat) (hk : paintDepth s ≤ k) :
    ∃ k2, balAfter k fx = some k2 ∧ paintDepth s2 ≤ k2 := by
  cases e with
  | enter =>
      simp only [sceneStep] at hstep
      obtain ⟨hp, hfx⟩ := setBrushVisible_fields hstep
      have hd : paintDepth s2 = paintDepth s := by simp [paintDepth, hp]
      rcases hfx with rfl | rfl
      · exact ⟨k, by simp [balAfter], by rw [hd]; exact hk⟩
      · exact ⟨k, by simp [balAfter], by rw [hd]; exact hk⟩
  | leave =>
      simp only [sceneStep] at hstep
      obtain ⟨hp, hfx⟩ := setBrushVisible_fields hstep
      have hd : paintDepth s2 = paintDepth s := by simp [paintDepth, hp]
      rcases hfx with rfl | rfl
      · exact ⟨k, by simp [balAfter], by rw [hd]; exact hk⟩
      · exact ⟨k, by simp [balAfter], by rw [hd]; exact hk⟩
  | brushVisible v =>
      simp only [sceneStep] at hstep
      obtain ⟨hp, hfx⟩ := setBrushVisible_fields hstep
      have hd : paintDepth s2 = paintDepth s := by simp [paintDepth, hp]
      rcases hfx with rfl | rfl
      · exact ⟨k, by simp [balAfter], by rw [hd]; exact hk⟩
      · exact ⟨k, by simp [balAfter], by rw [hd]; exact hk⟩
  | mouseMove e0 =>
      simp only [sceneStep] at hstep
      cases hstep
      refine ⟨k, by simp [balAfter], ?_⟩
      have hd : paintDepth (s.mouseMoveEvent e0) = paintDepth s := by
        simp [paintDepth, mouseMoveEvent_painting]
      rw [hd]
      exact hk
  | mousePress =>
      simp only [sceneStep, MapScene.mousePressEvent] at hstep
      by_cases hb : s.brush.visible = true
      · rw [if_pos hb] at hstep
        cases hstep
        refine ⟨k + 1, by simp [balAfter], ?_⟩
        simp [paintDepth]
      · rw [if_neg hb] at hstep
        cases hstep
        exact ⟨k, by simp [balAfter], hk⟩
  | mouseRelease =>
      simp only [sceneStep, MapScene.mouseReleaseEvent] at hstep
      by_cases hp : s.painting = true
      · rw [if_pos hp] at hstep
        cases hstep
        have hk1 : 1 ≤ k := by
          have : paintDepth s = 1 := by simp [paintDepth, hp]
          omega
        cases k with
        | zero => omega
        | succ k2 =>
            refine ⟨k2, by simp [balAfter], ?_⟩
            simp [paintDepth]
      · rw [if_neg hp] at hstep
        cases hstep
        exact ⟨k, by simp [balAfter], hk⟩
  | gridVisible v =>
      simp only [sceneStep, MapScene.setGridVisible] at hstep
      by_cases hg : s.gridVisible = v
      · rw [if_pos hg] at hstep
        cases hstep
        exact ⟨k, by simp [balAfter], hk⟩
      · rw [if_neg hg] at hstep
        cases hstep
        exact ⟨k, by simp [balAfter], hk⟩
  | setDocument d =>
      simp only [sceneStep] at hstep
      obtain ⟨s4, hsm, heq⟩ := Option.map_eq_some'.mp hstep
      cases heq
      refine ⟨k, by simp [balAfter], ?_⟩
      have hd : paintDepth s2 = paintDepth s := by
        simp [paintDepth, setMapDocument_painting hsm]
      rw [hd]
      exact hk
  | refresh =>
      simp only [sceneStep] at hstep
      cases hstep
      refine ⟨k, by simp [balAfter], ?_⟩
      have hd : paintDepth s.refreshScene = paintDepth s := by
        simp [paintDepth, refreshScene_painting]
      rw [hd]
      exact hk

/-- Running any event list keeps the paint-call trace consistent with the
painting flag. -/
theorem sceneRun_balance {evs : List SceneEvent} {s s3 : MapScene}
    {gx : List Effect} (hrun : sceneRun s evs = some (s3, gx)) (k : Nat)
    (hk : paintDepth s ≤ k) :
    ∃ k2, balAfter k gx = some k2 ∧ paintDepth s3 ≤ k2 := by
  induction evs generalizing s k gx with
  | nil =>
      simp only [sceneRun] at hrun
      cases hrun
      exact ⟨k, by simp [balAfter], hk⟩
  | cons e rest ih =>
      simp only [sceneRun] at hrun
      cases hstep : sceneStep s e with
      | none =>
          simp only [hstep] at hrun
          cases hrun
      | some p =>
          obtain ⟨s2, fx⟩ := p
          simp only [hstep] at hrun
          cases hrest : sceneRun s2 rest with
          | none =>
              simp only [hrest] at hrun
              cases hrun
          | some q =>
              obtain ⟨s4, fx2⟩ := q
              simp only [hrest] at hrun
              cases hrun
              obtain ⟨k2, hb1, hd1⟩ := sceneStep_balance hstep k hk
              obtain ⟨k3, hb2, hd2⟩ := ih hrest k2 hd1
              refine ⟨k3, ?_, hd2⟩
              rw [balAfter_append, hb1]
              exact hb2

/-- Claim C9: painting is a two-state machine that never unbalances the
brush paint calls.  From a non-painting state, a step turns the painting
flag on only through a mouse press with the brush item visible, which
emits exactly one `beginPaint`; a mouse release emits `endPaint` exactly
when the painting flag is set and then clears it; and the effect trace of
any event run never contains an `endPaint` without a strictly preceding
unmatched `beginPaint`. -/
theorem painting_protocol (s s2 s3 t : MapScene) (e : SceneEvent)
    (evs : List SceneEvent) (fx gx : List Effect)
    (h0 : s.painting = false)
    (hstep : sceneStep s e = some (s2, fx))
    (hrun : sceneRun s evs = some (s3, gx)) :
    (s2.painting = true →
        e = SceneEvent.mousePress ∧ s.brush.visible = true
          ∧ fx = [Effect.beginPaint])
  ∧ t.mouseReleaseEvent.2 = (if t.painting = true then [Effect.endPaint] else [])
  ∧ t.mouseReleaseEvent.1.painting = false
  ∧ paintBalanced gx = true := by
  refine ⟨?_, ?_, ?_, ?_⟩
  · intro hp2
    cases e with
    | mousePress =>
        simp only [sceneStep, MapScene.mousePressEvent] at hstep
        by_cases hb : s.brush.visible = true
        · rw [if_pos hb] at hstep
          cases hstep
          exact ⟨rfl, hb, rfl⟩
        · rw [if_neg hb] at hstep
          cases hstep
          rw [h0] at hp2
          exact absurd hp2 Bool.false_ne_true
    | mouseRelease =>
        simp only [sceneStep, MapScene.mouseReleaseEvent] at hstep
        rw [if_neg (by simp [h0])] at hstep
        cases hstep
        rw [h0] at hp2
        exact absurd hp2 Bool.false_ne_true
    | enter =>
        simp only [sceneStep] at hstep
        have hp := (setBrushVisible_fields hstep).1
        rw [hp, h0] at hp2
        exact absurd hp2 Bool.false_ne_true
    | leave =>
        simp only [sceneStep] at hstep
        have hp := (setBrushVisible_fields hstep).1
        rw [hp, h0] at hp2
        exact absurd hp2 Bool.false_ne_true
    | brushVisible v =>
        simp only [sceneStep] at hstep
        have hp := (setBrushVisible_fields hstep).1
        rw [hp, h0] at hp2
        exact absurd hp2 Bool.false_ne_true
    | mouseMove e0 =>
        simp only [sceneStep] at hstep
        cases hstep
        rw [mouseMoveEvent_painting, h0] at hp2
        exact absurd hp2 Bool.false_ne_true
    | gridVisible v =>
        simp only [sceneStep, MapScene.setGridVisible] at hstep
        by_cases hg : s.gridVisible = v
        · rw [if_pos hg] at hstep
          cases hstep
          rw [h0] at hp2
          exact absurd hp2 Bool.false_ne_true
        · rw [if_neg hg] at hstep
          cases hstep
          rw [show ({ s with gridVisible := v } : MapScene).painting
              = s.painting from rfl, h0] at hp2
          exact absurd hp2 Bool.false_ne_true
    | setDocument d =>
        simp only [sceneStep] at hstep
        obtain ⟨s4, hsm, heq⟩ := Option.map_eq_some'.mp hstep
        cases heq
        rw [setMapDocument_painting hsm, h0] at hp2
        exact absurd hp2 Bool.false_ne_true
    | refresh =>
        simp only [sceneStep] at hstep
        cases hstep
        rw [refreshScene_painting, h0] at hp2
        exact absurd hp2 Bool.false_ne_true
  · cases htp : t.painting <;> simp [MapScene.mouseReleaseEvent, htp]
  · cases htp : t.painting <;> simp [MapScene.mouseReleaseEvent, htp]
  · have h00 : paintDepth s ≤ 0 := by simp [paintDepth, h0]
    obtain ⟨k2, hb, _⟩ := sceneRun_balance hrun 0 h00
    rw [paintBalanced, hb]
    rfl

/-- Witness for claim C9: on the document-less scene with a visible brush,
a press step emits `beginPaint`, and the run press–release emits the
balanced trace `beginPaint, endPaint`. -/
theorem painting_protocol_witness :
    (({ sceneBrushOn with painting := true } : MapScene).painting = true →
        SceneEvent.mousePress = SceneEvent.mousePress
          ∧ sceneBrushOn.brush.visible = true
          ∧ [Effect.beginPaint] = [Effect.beginPaint])
  ∧ MapScene.init.mouseReleaseEvent.2
      = (if MapScene.init.painting = true then [Effect.endPaint] else [])
  ∧ MapScene.init.mouseReleaseEvent.1.painting = false
  ∧ paintBalanced [Effect.beginPaint, Effect.endPaint] = true :=
  painting_protocol sceneBrushOn { sceneBrushOn with painting := true }
    sceneBrushOn MapScene.init SceneEvent.mousePress
    [SceneEvent.mousePress, SceneEvent.mouseRelease]
    [Effect.beginPaint] [Effect.beginPaint, Effect.endPaint]
    rfl (by decide) (by decide)

end Tiled
